import Mathlib

/-!
Verification of the per-guild playback/queue/filter state machine of the
Discord music bot.  Each definition is a shallow embedding of the Python
source named in its doc comment; theorems check the spec's claims about
that code.

Conventions of the embedding:
* Python `float` is modelled as `Rat` (the claims never depend on
  floating-point rounding).
* Python methods mutating `self` become functions `State → ... → State`
  (or `State → Result × State` when they also return a value).
* Python exceptions become `Except`; an `Except.error` means the method
  raised, leaving the caller's object in the state it had at raise time.
-/

/-- Embeds `domain/entities/track.py::Track` (dataclass).  Only the fields
the queue logic inspects are kept; equality is structural, as for the
Python dataclass. -/
structure Track where
  title : String
  url : String
  duration : Int
  requester_id : Int
deriving DecidableEq, Repr

/-- Embeds `domain/entities/playlist.py::RepeatMode`. -/
inductive RepeatMode where
  | off
  | track
  | queue
deriving DecidableEq, Repr

/-- Embeds `domain/entities/playlist.py::Playlist` (dataclass fields that
the queue operations read or write). -/
structure Playlist where
  tracks : List Track
  current_index : Int
  repeat_mode : RepeatMode
  shuffle : Bool
  history : List Track
  max_size : Nat
deriving DecidableEq, Repr

/-- Python list indexing `l[i]` for `i : Int` (negative indices count from
the end; out-of-range yields `none`, standing for `IndexError`). -/
def pyGet (l : List Track) (i : Int) : Option Track :=
  if 0 ≤ i then l[i.toNat]?
  else if 0 ≤ (l.length : Int) + i then l[((l.length : Int) + i).toNat]?
  else none

/-- Python slice `l[-n:]`: the last `n` elements. -/
def lastN (n : Nat) (l : List Track) : List Track :=
  l.drop (l.length - n)

namespace Playlist

/-- Embeds `Playlist.get_current_track`. -/
def get_current_track (p : Playlist) : Option Track :=
  if p.current_index = -1 ∨ p.tracks = [] then none
  else pyGet p.tracks p.current_index

/-- The history-append step inside `Playlist.next_track`: the previous
current track is appended unless it occurs among the last five history
entries, and when the history exceeds 50 entries the oldest is dropped. -/
def addHistory (p : Playlist) (current : Option Track) : Playlist :=
  match current with
  | none => p
  | some c =>
    if c ∈ lastN 5 p.history then p
    else
      let h := p.history ++ [c]
      { p with history := if 50 < h.length then h.drop 1 else h }

/-- Embeds `Playlist.next_track`.  Returns the Python return value paired
with the playlist state after the call. -/
def next_track (p : Playlist) : Option Track × Playlist :=
  if p.tracks = [] then (none, p)
  else
    let current_track := p.get_current_track
    if p.repeat_mode = RepeatMode.track then (current_track, p)
    else if p.current_index + 1 < (p.tracks.length : Int) then
      let p' := addHistory { p with current_index := p.current_index + 1 } current_track
      (p'.get_current_track, p')
    else if p.repeat_mode = RepeatMode.queue then
      let p' := addHistory { p with current_index := 0 } current_track
      (p'.get_current_track, p')
    else (none, p)

/-- Embeds `Playlist.add_track` (`position=None` appends; an explicit
position inserts there, clamped to the end as Python `list.insert` does).
`Except.error` models the `ValueError(\x22Playlist is full\x22)` raise,
which happens before any mutation. -/
def add_track (p : Playlist) (t : Track) (position : Option Nat) :
    Except String Playlist :=
  if p.max_size ≤ p.tracks.length then Except.error "Playlist is full"
  else
    match position with
    | none => Except.ok { p with tracks := p.tracks ++ [t] }
    | some pos =>
      Except.ok { p with tracks := p.tracks.take pos ++ t :: p.tracks.drop pos }

/-- Embeds `Playlist.remove_track`. -/
def remove_track (p : Playlist) (index : Int) : Option Track × Playlist :=
  if ¬(0 ≤ index ∧ index < (p.tracks.length : Int)) then (none, p)
  else
    let i := index.toNat
    ( p.tracks[i]?,
      { p with
          tracks := p.tracks.take i ++ p.tracks.drop (i + 1),
          current_index :=
            if index ≤ p.current_index then p.current_index - 1
            else p.current_index } )

/-- Embeds `Playlist.previous_track`. -/
def previous_track (p : Playlist) : Option Track × Playlist :=
  if p.tracks = [] ∨ p.current_index ≤ 0 then (none, p)
  else
    let p' := { p with current_index := p.current_index - 1 }
    (p'.get_current_track, p')

/-- Embeds `Playlist.skip_to`. -/
def skip_to (p : Playlist) (index : Int) : Option Track × Playlist :=
  if ¬(0 ≤ index ∧ index < (p.tracks.length : Int)) then (none, p)
  else
    let p' := { p with current_index := index }
    (p'.get_current_track, p')

/-- Embeds `Playlist.clear`. -/
def clear (p : Playlist) : Playlist :=
  { p with tracks := [], current_index := -1 }

/-- Embeds `Playlist.shuffle_tracks`; `perm` stands for the result of
`random.shuffle` on the given list (the theorems assume it preserves
length, as a shuffle does).  A `current_index` pointing outside the track
list would raise `IndexError` in Python; that branch returns the state
unchanged and is unreachable from states satisfying the queue invariant. -/
def shuffle_tracks (p : Playlist) (perm : List Track → List Track) : Playlist :=
  if p.tracks.length ≤ 1 then p
  else if 0 ≤ p.current_index then
    match p.tracks[p.current_index.toNat]? with
    | some cur =>
      let rest := p.tracks.take p.current_index.toNat ++
                  p.tracks.drop (p.current_index.toNat + 1)
      { p with tracks := cur :: perm rest, current_index := 0, shuffle := true }
    | none => p
  else { p with tracks := perm p.tracks, shuffle := true }

end Playlist

/-- A fresh playlist as `dataclass` defaults build it (empty deque, cursor
−1, repeat off, empty history), with the given repeat mode and capacity. -/
def startQueue (ts : List Track) (m : RepeatMode) (cap : Nat) : Playlist :=
  { tracks := ts, current_index := -1, repeat_mode := m,
    shuffle := false, history := [], max_size := cap }

/-- Iterate `next_track` `n` times, collecting the returned values and the
final playlist state. -/
def advanceN (p : Playlist) : Nat → List (Option Track) × Playlist
  | 0 => ([], p)
  | n + 1 =>
    let (r, p') := p.next_track
    let (rs, p'') := advanceN p' n
    (r :: rs, p'')

/-! ### Basic lemmas about the queue operations -/

@[simp] lemma addHistory_tracks (p : Playlist) (c : Option Track) :
    (p.addHistory c).tracks = p.tracks := by
  cases c with
  | none => rfl
  | some c =>
    unfold Playlist.addHistory
    dsimp only
    split <;> rfl

@[simp] lemma addHistory_current_index (p : Playlist) (c : Option Track) :
    (p.addHistory c).current_index = p.current_index := by
  cases c with
  | none => rfl
  | some c =>
    unfold Playlist.addHistory
    dsimp only
    split <;> rfl

@[simp] lemma addHistory_repeat_mode (p : Playlist) (c : Option Track) :
    (p.addHistory c).repeat_mode = p.repeat_mode := by
  cases c with
  | none => rfl
  | some c =>
    unfold Playlist.addHistory
    dsimp only
    split <;> rfl

@[simp] lemma addHistory_max_size (p : Playlist) (c : Option Track) :
    (p.addHistory c).max_size = p.max_size := by
  cases c with
  | none => rfl
  | some c =>
    unfold Playlist.addHistory
    dsimp only
    split <;> rfl

@[simp] lemma addHistory_shuffle (p : Playlist) (c : Option Track) :
    (p.addHistory c).shuffle = p.shuffle := by
  cases c with
  | none => rfl
  | some c =>
    unfold Playlist.addHistory
    dsimp only
    split <;> rfl

lemma get_current_of_nat (p : Playlist) (k : Nat)
    (h : p.current_index = (k : Int)) (ht : p.tracks ≠ []) :
    p.get_current_track = p.tracks[k]? := by
  unfold Playlist.get_current_track pyGet
  have hk : ¬((k : Int) = -1) := by omega
  simp [h, ht, hk]

lemma next_track_step (p : Playlist) (k : Nat)
    (hm : p.repeat_mode ≠ RepeatMode.track)
    (hi : p.current_index = (k : Int) - 1) (hk : k < p.tracks.length) :
    p.next_track =
      (p.tracks[k]?,
       Playlist.addHistory { p with current_index := (k : Int) }
         p.get_current_track) := by
  have ht : p.tracks ≠ [] := by
    intro h0
    rw [h0] at hk
    simp at hk
  have hlt : p.current_index + 1 < (p.tracks.length : Int) := by omega
  have hidx : p.current_index + 1 = (k : Int) := by omega
  have hkz : (k : Int) < (p.tracks.length : Int) := by omega
  unfold Playlist.next_track
  simp only [ht, hm, hidx, hkz, ite_true, ite_false, if_neg not_false, if_pos trivial]
  refine Prod.ext ?_ rfl
  have h2 : (Playlist.addHistory { p with current_index := (k : Int) }
      p.get_current_track).current_index = (k : Int) := by simp
  have h3 : (Playlist.addHistory { p with current_index := (k : Int) }
      p.get_current_track).tracks = p.tracks := by simp
  rw [get_current_of_nat _ k h2 (by rw [h3]; exact ht), h3]

lemma next_track_wrap (p : Playlist)
    (hm : p.repeat_mode = RepeatMode.queue)
    (hi : p.current_index = (p.tracks.length : Int) - 1)
    (ht : p.tracks ≠ []) :
    p.next_track =
      (p.tracks[0]?,
       Playlist.addHistory { p with current_index := 0 }
         p.get_current_track) := by
  have hm2 : p.repeat_mode ≠ RepeatMode.track := by
    rw [hm]
    intro h
    cases h
  have hge : ¬(p.current_index + 1 < (p.tracks.length : Int)) := by omega
  unfold Playlist.next_track
  simp only [ht, hm2, hge, ite_true, ite_false, if_neg not_false]
  rw [if_pos hm]
  refine Prod.ext ?_ rfl
  have h2 : (Playlist.addHistory { p with current_index := 0 }
      p.get_current_track).current_index = ((0 : Nat) : Int) := by simp
  have h3 : (Playlist.addHistory { p with current_index := 0 }
      p.get_current_track).tracks = p.tracks := by simp
  rw [get_current_of_nat _ 0 h2 (by rw [h3]; exact ht), h3]

lemma next_track_exhausted (p : Playlist)
    (hm : p.repeat_mode = RepeatMode.off)
    (hi : (p.tracks.length : Int) ≤ p.current_index + 1) :
    p.next_track = (none, p) := by
  have hm2 : p.repeat_mode ≠ RepeatMode.track := by
    rw [hm]
    intro h
    cases h
  have hm3 : p.repeat_mode ≠ RepeatMode.queue := by
    rw [hm]
    intro h
    cases h
  have hge : ¬(p.current_index + 1 < (p.tracks.length : Int)) := by omega
  unfold Playlist.next_track
  by_cases htr : p.tracks = []
  · simp only [htr, ite_true, if_pos trivial]
  · simp only [htr, hm2, hm3, hge, ite_true, ite_false, if_neg not_false]

lemma advanceN_succ (p : Playlist) (n : Nat) :
    advanceN p (n + 1) =
      (p.next_track.1 :: (advanceN p.next_track.2 n).1,
       (advanceN p.next_track.2 n).2) := rfl

lemma advanceN_off_run (ts : List Track) :
    ∀ (r k : Nat) (p : Playlist),
      p.repeat_mode = RepeatMode.off → p.tracks = ts →
      p.current_index = (k : Int) - 1 → k + r = ts.length →
      (advanceN p r).1 = (ts.drop k).map some ∧
      (advanceN p r).2.tracks = ts ∧
      (advanceN p r).2.repeat_mode = RepeatMode.off ∧
      (advanceN p r).2.current_index = (ts.length : Int) - 1 := by
  intro r
  induction r with
  | zero =>
    intro k p hm htr hi hk
    refine ⟨?_, htr, hm, ?_⟩
    · rw [List.drop_eq_nil_of_le (by omega)]
      rfl
    · show p.current_index = (ts.length : Int) - 1
      omega
  | succ r ih =>
    intro k p hm htr hi hk
    have hm' : p.repeat_mode ≠ RepeatMode.track := by
      rw [hm]
      intro h
      cases h
    have hk' : k < ts.length := by omega
    have step := next_track_step p k hm' hi (by rw [htr]; exact hk')
    rw [advanceN_succ, step]
    have hrec := ih (k + 1)
      (Playlist.addHistory { p with current_index := (k : Int) } p.get_current_track)
      (by simp [hm]) (by simp [htr])
      (by simp only [addHistory_current_index]; push_cast; omega) (by omega)
    refine ⟨?_, hrec.2.1, hrec.2.2.1, hrec.2.2.2⟩
    dsimp only
    rw [hrec.1, htr, List.drop_eq_getElem_cons hk', List.map_cons,
      List.getElem?_eq_getElem hk']

lemma advanceN_exhausted (p : Playlist) (k : Nat)
    (hm : p.repeat_mode = RepeatMode.off)
    (hi : (p.tracks.length : Int) ≤ p.current_index + 1) :
    advanceN p k = (List.replicate k none, p) := by
  induction k with
  | zero => rfl
  | succ k ih =>
    rw [advanceN_succ, next_track_exhausted p hm hi]
    simp [ih, List.replicate_succ]

lemma advanceN_add (p : Playlist) (m k : Nat) :
    advanceN p (m + k)
      = ((advanceN p m).1 ++ (advanceN (advanceN p m).2 k).1,
         (advanceN (advanceN p m).2 k).2) := by
  induction m generalizing p with
  | zero => simp [advanceN]
  | succ m ih =>
    have : m + 1 + k = (m + k) + 1 := by omega
    rw [this, advanceN_succ, advanceN_succ, ih]
    rfl

/-- Folding `Playlist.add_track` (at the default end position) over a list
of tracks, propagating the capacity exception. -/
def addAll (p : Playlist) : List Track → Except String Playlist
  | [] => Except.ok p
  | t :: rest =>
    match p.add_track t none with
    | Except.error e => Except.error e
    | Except.ok p' => addAll p' rest

lemma addAll_ok (ts : List Track) : ∀ (p : Playlist),
    p.tracks.length + ts.length ≤ p.max_size →
    addAll p ts = Except.ok { p with tracks := p.tracks ++ ts } := by
  induction ts with
  | nil =>
    intro p h
    simp [addAll]
  | cons t rest ih =>
    intro p h
    have hlt : ¬(p.max_size ≤ p.tracks.length) := by
      simp only [List.length_cons] at h
      omega
    rw [addAll, Playlist.add_track, if_neg hlt]
    show addAll { p with tracks := p.tracks ++ [t] } rest = _
    rw [ih { p with tracks := p.tracks ++ [t] } (by simp at h ⊢; omega)]
    simp

/-- Sample tracks used by concrete witnesses and counterexamples. -/
def trackA : Track := { title := "A", url := "urlA", duration := 100, requester_id := 1 }

def trackB : Track := { title := "B", url := "urlB", duration := 200, requester_id := 1 }

def trackC : Track := { title := "C", url := "urlC", duration := 300, requester_id := 2 }

/-- C2: with repeat mode OFF, adding any non-empty sequence of tracks to an
empty queue and then repeatedly advancing returns the tracks in insertion
order exactly once each; every later advance returns `None` and leaves the
playlist state unchanged. -/
theorem C2_off_mode_insertion_order (ts : List Track) (cap : Nat)
    (_hne : ts ≠ []) (hcap : ts.length ≤ cap) :
    addAll (startQueue [] RepeatMode.off cap) ts
        = Except.ok (startQueue ts RepeatMode.off cap) ∧
    ∀ k : Nat,
      (advanceN (startQueue ts RepeatMode.off cap) (ts.length + k)).1
        = ts.map some ++ List.replicate k none ∧
      (advanceN (startQueue ts RepeatMode.off cap) (ts.length + k)).2
        = (advanceN (startQueue ts RepeatMode.off cap) ts.length).2 := by
  constructor
  · rw [addAll_ok ts (startQueue [] RepeatMode.off cap) (by simp [startQueue]; omega)]
    rfl
  · intro k
    have run := advanceN_off_run ts ts.length 0 (startQueue ts RepeatMode.off cap)
      rfl rfl (by simp [startQueue]) (by omega)
    have hfin : advanceN (advanceN (startQueue ts RepeatMode.off cap) ts.length).2 k
        = (List.replicate k none,
           (advanceN (startQueue ts RepeatMode.off cap) ts.length).2) :=
      advanceN_exhausted _ k run.2.2.1 (by rw [run.2.1, run.2.2.2]; omega)
    rw [advanceN_add, hfin, run.1]
    simp

lemma advanceN_queue_run (ts : List Track) :
    ∀ (r : Nat) (p : Playlist) (i : Nat),
      p.repeat_mode = RepeatMode.queue → p.tracks = ts → i < ts.length →
      p.current_index = (i : Int) →
      (advanceN p r).1
        = (List.range r).map (fun j => ts[(i + 1 + j) % ts.length]?) ∧
      (advanceN p r).2.tracks = ts := by
  intro r
  induction r with
  | zero =>
    intro p i _hm htr _hilt _hci
    exact ⟨rfl, htr⟩
  | succ r ih =>
    intro p i hm htr hilt hci
    have hm' : p.repeat_mode ≠ RepeatMode.track := by
      rw [hm]
      intro h
      cases h
    by_cases hcase : i + 1 < ts.length
    · have step := next_track_step p (i + 1) hm'
        (by rw [hci]; push_cast; ring) (by rw [htr]; exact hcase)
      rw [advanceN_succ, step]
      have hrec := ih
        (Playlist.addHistory { p with current_index := ((i + 1 : Nat) : Int) }
          p.get_current_track)
        (i + 1) (by simp [hm]) (by simp [htr]) hcase
        (by simp only [addHistory_current_index])
      refine ⟨?_, hrec.2⟩
      dsimp only
      rw [hrec.1, htr, List.range_succ_eq_map, List.map_cons, List.map_map]
      have hhead : (i + 1 + 0) % ts.length = i + 1 := by
        rw [Nat.add_zero]
        exact Nat.mod_eq_of_lt hcase
      rw [hhead]
      refine congrArg₂ _ rfl ?_
      refine List.map_congr_left ?_
      intro j _hj
      have hnum : i + 1 + Nat.succ j = i + 1 + 1 + j := by omega
      show ts[(i + 1 + 1 + j) % ts.length]? = ts[(i + 1 + Nat.succ j) % ts.length]?
      rw [hnum]
    · have heq : i + 1 = ts.length := by omega
      have step := next_track_wrap p hm
        (by rw [hci, htr]; omega) (by rw [htr]; intro h0; rw [h0] at hilt; simp at hilt)
      rw [advanceN_succ, step]
      have hrec := ih
        (Playlist.addHistory { p with current_index := (0 : Int) }
          p.get_current_track)
        0 (by simp [hm]) (by simp [htr]) (by omega)
        (by simp only [addHistory_current_index]; rfl)
      refine ⟨?_, hrec.2⟩
      dsimp only
      rw [hrec.1, htr, List.range_succ_eq_map, List.map_cons, List.map_map]
      have hhead : (i + 1 + 0) % ts.length = 0 := by
        rw [Nat.add_zero, heq, Nat.mod_self]
      rw [hhead]
      refine congrArg₂ _ rfl ?_
      refine List.map_congr_left ?_
      intro j _hj
      have hnum : i + 1 + Nat.succ j = ts.length + (j + 1) := by omega
      have hnum2 : 0 + 1 + j = j + 1 := by omega
      show ts[(0 + 1 + j) % ts.length]? = ts[(i + 1 + Nat.succ j) % ts.length]?
      rw [hnum, hnum2, Nat.add_mod_left]

/-- C3: with repeat mode ALL (QUEUE), starting an `n`-track queue from
cursor −1, the `j`-th of `n + k` successive advances returns track
`j mod n` — the first `n` results repeated cyclically — and the queue
contents are unchanged. -/
theorem C3_all_mode_cyclic (ts : List Track) (cap k : Nat) (hne : ts ≠ []) :
    (advanceN (startQueue ts RepeatMode.queue cap) (ts.length + k)).1
      = (List.range (ts.length + k)).map (fun j => ts[j % ts.length]?) ∧
    (advanceN (startQueue ts RepeatMode.queue cap) (ts.length + k)).2.tracks
      = ts := by
  have hn : 0 < ts.length := List.length_pos.mpr hne
  have step := next_track_step (startQueue ts RepeatMode.queue cap) 0
    (by intro h; cases h) (by rfl) (by simpa using hn)
  have hsplit : ts.length + k = (ts.length - 1 + k) + 1 := by omega
  rw [hsplit, advanceN_succ, step]
  have hrec := advanceN_queue_run ts (ts.length - 1 + k)
    (Playlist.addHistory
      { startQueue ts RepeatMode.queue cap with current_index := ((0 : Nat) : Int) }
      (startQueue ts RepeatMode.queue cap).get_current_track)
    0 (by simp [startQueue]) (by simp [startQueue]) hn
    (by simp only [addHistory_current_index])
  refine ⟨?_, hrec.2⟩
  dsimp only
  rw [hrec.1, List.range_succ_eq_map, List.map_cons, List.map_map]
  have hhead : ts[0 % ts.length]? = ts[0]? := by
    rw [Nat.zero_mod]
  rw [show (startQueue ts RepeatMode.queue cap).tracks = ts from rfl, hhead.symm]
  refine congrArg₂ _ rfl ?_
  refine List.map_congr_left ?_
  intro j _hj
  have hnum : 0 + 1 + j = Nat.succ j := by omega
  show ts[(0 + 1 + j) % ts.length]? = ts[Nat.succ j % ts.length]?
  rw [hnum]

/-- Witness for C2 at a concrete queue: two tracks added with repeat OFF,
three advances return A, B, then None. -/
theorem C2_off_mode_insertion_order_witness :
    (advanceN (startQueue [trackA, trackB] RepeatMode.off 100) (2 + 1)).1
      = [trackA, trackB].map some ++ List.replicate 1 none :=
  ((C2_off_mode_insertion_order [trackA, trackB] 100 (by decide)
    (by decide)).2 1).1

/-- Witness for C3 at a concrete queue: two tracks with repeat ALL,
three advances return A, B, A. -/
theorem C3_all_mode_cyclic_witness :
    (advanceN (startQueue [trackA, trackB] RepeatMode.queue 100) (2 + 1)).1
      = (List.range (2 + 1)).map
          (fun j => ([trackA, trackB] : List Track)[j % 2]?) ∧
    (advanceN (startQueue [trackA, trackB] RepeatMode.queue 100) (2 + 1)).2.tracks
      = [trackA, trackB] :=
  C3_all_mode_cyclic [trackA, trackB] 100 1 (by decide)

/-- C10: with repeat mode TRACK and a never-started queue (cursor −1),
`next_track` returns `None` and leaves the playlist unchanged, even though
tracks are present. -/
theorem C10_track_mode_unstarted_advance (p : Playlist)
    (hm : p.repeat_mode = RepeatMode.track)
    (hi : p.current_index = -1) (ht : p.tracks ≠ []) :
    p.next_track = (none, p) := by
  unfold Playlist.next_track Playlist.get_current_track
  simp [ht, hm, hi]

/-- Witness for C10 at a concrete playlist with one track. -/
theorem C10_track_mode_unstarted_advance_witness :
    (startQueue [trackA] RepeatMode.track 100).next_track
      = (none, startQueue [trackA] RepeatMode.track 100) :=
  C10_track_mode_unstarted_advance _ rfl rfl (by decide)

/-- The queue invariant claimed by the spec: the cursor lies in
`[−1, len(tracks)−1]` and the track count never exceeds `max_size`. -/
def queueInv (p : Playlist) : Prop :=
  -1 ≤ p.current_index ∧ p.current_index ≤ (p.tracks.length : Int) - 1 ∧
  p.tracks.length ≤ p.max_size

instance (p : Playlist) : Decidable (queueInv p) := by
  unfold queueInv
  infer_instance

/-- Queue states reachable from a fresh playlist through the queue
operations (plus repeat-mode changes, which `MusicService.set_repeat_mode`
performs directly on the playlist).  `random.shuffle` is abstracted as a
length-preserving function. -/
inductive ReachableQueue : Playlist → Prop where
  | init (m : RepeatMode) (cap : Nat) : ReachableQueue (startQueue [] m cap)
  | add {p p' : Playlist} (t : Track) (pos : Option Nat) :
      ReachableQueue p → p.add_track t pos = Except.ok p' → ReachableQueue p'
  | advance {p : Playlist} : ReachableQueue p → ReachableQueue p.next_track.2
  | previous {p : Playlist} : ReachableQueue p →
      ReachableQueue p.previous_track.2
  | skip {p : Playlist} (i : Int) : ReachableQueue p →
      ReachableQueue (p.skip_to i).2
  | remove {p : Playlist} (i : Int) : ReachableQueue p →
      ReachableQueue (p.remove_track i).2
  | clearOp {p : Playlist} : ReachableQueue p → ReachableQueue p.clear
  | shuffleOp {p : Playlist} (perm : List Track → List Track)
      (hperm : ∀ l, (perm l).length = l.length) :
      ReachableQueue p → ReachableQueue (p.shuffle_tracks perm)
  | setMode {p : Playlist} (m : RepeatMode) : ReachableQueue p →
      ReachableQueue { p with repeat_mode := m }

lemma inv_add {p p' : Playlist} (t : Track) (pos : Option Nat)
    (h : queueInv p) (hok : p.add_track t pos = Except.ok p') : queueInv p' := by
  unfold Playlist.add_track at hok
  by_cases hfull : p.max_size ≤ p.tracks.length
  · rw [if_pos hfull] at hok
    cases hok
  · rw [if_neg hfull] at hok
    obtain ⟨h1, h2, h3⟩ := h
    cases pos with
    | none =>
      cases hok
      refine ⟨h1, ?_, ?_⟩ <;> simp <;> omega
    | some pos =>
      cases hok
      have hlen : (p.tracks.take pos ++ t :: p.tracks.drop pos).length
          = p.tracks.length + 1 := by
        simp
        omega
      refine ⟨h1, ?_, ?_⟩ <;> simp only [hlen] <;> push_cast <;> omega

lemma inv_next {p : Playlist} (h : queueInv p) : queueInv p.next_track.2 := by
  obtain ⟨h1, h2, h3⟩ := h
  unfold Playlist.next_track
  dsimp only
  split
  · exact ⟨h1, h2, h3⟩
  · next htr =>
    have hpos : 0 < p.tracks.length := List.length_pos.mpr htr
    split
    · exact ⟨h1, h2, h3⟩
    · split
      · next hlt =>
        refine ⟨?_, ?_, ?_⟩ <;>
          simp only [addHistory_current_index, addHistory_tracks,
            addHistory_max_size] <;> omega
      · split
        · refine ⟨?_, ?_, ?_⟩ <;>
            simp only [addHistory_current_index, addHistory_tracks,
              addHistory_max_size] <;> omega
        · exact ⟨h1, h2, h3⟩

lemma inv_previous {p : Playlist} (h : queueInv p) :
    queueInv p.previous_track.2 := by
  obtain ⟨h1, h2, h3⟩ := h
  unfold Playlist.previous_track
  dsimp only
  split
  · exact ⟨h1, h2, h3⟩
  · next hcond =>
    push_neg at hcond
    unfold queueInv
    dsimp only
    exact ⟨by omega, by omega, h3⟩

lemma inv_skip {p : Playlist} (i : Int) (h : queueInv p) :
    queueInv (p.skip_to i).2 := by
  obtain ⟨h1, h2, h3⟩ := h
  unfold Playlist.skip_to
  dsimp only
  split
  · exact ⟨h1, h2, h3⟩
  · next hcond =>
    rw [not_not] at hcond
    unfold queueInv
    dsimp only
    exact ⟨by omega, by omega, h3⟩

lemma inv_remove {p : Playlist} (i : Int) (h : queueInv p) :
    queueInv (p.remove_track i).2 := by
  obtain ⟨h1, h2, h3⟩ := h
  unfold Playlist.remove_track
  dsimp only
  split
  · exact ⟨h1, h2, h3⟩
  · next hcond =>
    rw [not_not] at hcond
    have hlen : (p.tracks.take i.toNat ++ p.tracks.drop (i.toNat + 1)).length
        = p.tracks.length - 1 := by
      simp
      omega
    unfold queueInv
    dsimp only
    rw [hlen]
    refine ⟨by split <;> omega, by split <;> omega, by omega⟩

lemma inv_clear {p : Playlist} (_h : queueInv p) : queueInv p.clear := by
  unfold Playlist.clear queueInv
  dsimp only
  exact ⟨by omega, by omega, by simp⟩

lemma inv_shuffle {p : Playlist} (perm : List Track → List Track)
    (hperm : ∀ l, (perm l).length = l.length) (h : queueInv p) :
    queueInv (p.shuffle_tracks perm) := by
  obtain ⟨h1, h2, h3⟩ := h
  unfold Playlist.shuffle_tracks
  dsimp only
  split
  · exact ⟨h1, h2, h3⟩
  · next hgt =>
    split
    · next hci =>
      split
      · next cur hsome =>
        have hidx : p.current_index.toNat < p.tracks.length :=
          (List.getElem?_eq_some.mp hsome).1
        have hrest : (perm (List.take p.current_index.toNat p.tracks ++
            List.drop (p.current_index.toNat + 1) p.tracks)).length
            = p.tracks.length - 1 := by
          rw [hperm]
          simp
          omega
        unfold queueInv
        dsimp only
        rw [List.length_cons, hrest]
        exact ⟨by omega, by push_cast; omega, by omega⟩
      · exact ⟨h1, h2, h3⟩
    · unfold queueInv
      dsimp only
      rw [hperm]
      exact ⟨by omega, by omega, by omega⟩

/-- C8: every queue state reachable through the queue operations satisfies
the invariant `current_index ∈ [−1, len(tracks)−1] ∧ len(tracks) ≤
max_size`, and `add_track` on a queue already holding `max_size` tracks
always raises the capacity error.  In the embedding an `Except.error`
result models the `ValueError` raise, which in the source happens before
any mutation of `tracks`. -/
theorem C8_queue_invariants :
    (∀ p : Playlist, ReachableQueue p → queueInv p) ∧
    (∀ (p : Playlist) (t : Track) (pos : Option Nat),
      p.max_size ≤ p.tracks.length →
      p.add_track t pos = Except.error "Playlist is full") := by
  constructor
  · intro p hp
    induction hp with
    | init m cap =>
      unfold queueInv startQueue
      dsimp only
      exact ⟨by omega, by omega, by simp⟩
    | add t pos _ hok ih => exact inv_add t pos ih hok
    | advance _ ih => exact inv_next ih
    | previous _ ih => exact inv_previous ih
    | skip i _ ih => exact inv_skip i ih
    | remove i _ ih => exact inv_remove i ih
    | clearOp _ ih => exact inv_clear ih
    | shuffleOp perm hperm _ ih => exact inv_shuffle perm hperm ih
    | setMode m _ ih => exact ⟨ih.1, ih.2.1, ih.2.2⟩
  · intro p t pos h
    unfold Playlist.add_track
    rw [if_pos h]

/-- Witness for C8: the invariant holds at a concrete reachable state (one
add followed by one advance), and a concrete full queue rejects a further
add. -/
theorem C8_queue_invariants_witness :
    queueInv (Playlist.next_track (startQueue [trackA] RepeatMode.off 100)).2 ∧
    (startQueue [trackA] RepeatMode.off 1).add_track trackB none
      = Except.error "Playlist is full" := by
  constructor
  · refine C8_queue_invariants.1 _ ?_
    refine ReachableQueue.advance ?_
    exact ReachableQueue.add trackA none (ReachableQueue.init RepeatMode.off 100) rfl
  · exact C8_queue_invariants.2 _ trackB none (by decide)

lemma get_current_only_tracks_ci (p q : Playlist) (ht : p.tracks = q.tracks)
    (hc : p.current_index = q.current_index) :
    p.get_current_track = q.get_current_track := by
  unfold Playlist.get_current_track pyGet
  rw [ht, hc]

lemma next_track_fst_hist (p : Playlist) (h' : List Track) :
    ({ p with history := h' } : Playlist).next_track.1 = p.next_track.1 := by
  unfold Playlist.next_track
  dsimp only
  split_ifs <;>
    first
      | rfl
      | exact get_current_only_tracks_ci _ _ (by simp) (by simp)

lemma next_track_ci_hist (p : Playlist) (h' : List Track) :
    ({ p with history := h' } : Playlist).next_track.2.current_index
      = p.next_track.2.current_index := by
  unfold Playlist.next_track
  dsimp only
  split_ifs <;> simp

lemma next_track_tracks_hist (p : Playlist) (h' : List Track) :
    ({ p with history := h' } : Playlist).next_track.2.tracks
      = p.next_track.2.tracks := by
  unfold Playlist.next_track
  dsimp only
  split_ifs <;> simp

lemma addHistory_length_le (p : Playlist) (c : Option Track)
    (h : p.history.length ≤ 50) : (p.addHistory c).history.length ≤ 50 := by
  unfold Playlist.addHistory
  cases c with
  | none => exact h
  | some c =>
    dsimp only
    split
    · exact h
    · dsimp only
      split
      · next hgt =>
        simp only [List.length_drop, List.length_append, List.length_cons,
          List.length_nil] at hgt ⊢
        omega
      · next hle =>
        simp only [List.length_append, List.length_cons, List.length_nil] at hle ⊢
        omega

lemma next_track_hist_move (p : Playlist) (c : Track)
    (hm : p.repeat_mode ≠ RepeatMode.track) (ht : p.tracks ≠ [])
    (hcur : p.get_current_track = some c) (hmem : c ∉ lastN 5 p.history)
    (hmove : p.current_index + 1 < (p.tracks.length : Int) ∨
      p.repeat_mode = RepeatMode.queue) :
    p.next_track.2.history
      = if 50 < p.history.length + 1 then (p.history ++ [c]).drop 1
        else p.history ++ [c] := by
  unfold Playlist.next_track
  dsimp only
  rw [if_neg (by simpa using ht), if_neg hm]
  by_cases hlt : p.current_index + 1 < (p.tracks.length : Int)
  · rw [if_pos hlt]
    dsimp only
    unfold Playlist.addHistory
    rw [hcur]
    dsimp only
    rw [if_neg hmem]
    dsimp only
    simp only [List.length_append, List.length_cons, List.length_nil]
  · have hq : p.repeat_mode = RepeatMode.queue := hmove.resolve_left hlt
    rw [if_neg hlt, if_pos hq]
    dsimp only
    unfold Playlist.addHistory
    rw [hcur]
    dsimp only
    rw [if_neg hmem]
    dsimp only
    simp only [List.length_append, List.length_cons, List.length_nil]

/-- C9 counterexample: in ALL (QUEUE) mode with tracks `[A, B]`, the first
two advances move the cursor −1 → 0 → 1 and never wrap past the last
index, yet the second advance already appends A to the history — so the
history is not appended "exactly when the advance wraps". -/
theorem C9_history_only_on_wrap_counterexample :
    (advanceN (startQueue [trackA, trackB] RepeatMode.queue 100) 1).2.current_index
      = 0 ∧
    (advanceN (startQueue [trackA, trackB] RepeatMode.queue 100) 1).2.history
      = [] ∧
    (advanceN (startQueue [trackA, trackB] RepeatMode.queue 100) 2).2.current_index
      = 1 ∧
    (advanceN (startQueue [trackA, trackB] RepeatMode.queue 100) 2).2.history
      = [trackA] :=
  ⟨rfl, rfl, rfl, rfl⟩

/-- C9 (amended): on every advance that moves the cursor — in OFF or ALL
mode, wrapping or not — the track that was current before the move is
appended to the history unless it occurs among the last five history
entries; the history never exceeds 50 entries, the oldest entry being
evicted when an append would overflow; and the advance logic never
consults the history: return value, cursor and tracks are independent of
it. -/
theorem C9_history_buffer_amended :
    (∀ (p : Playlist) (c : Track),
       p.repeat_mode ≠ RepeatMode.track → p.tracks ≠ [] →
       p.get_current_track = some c → c ∉ lastN 5 p.history →
       (p.current_index + 1 < (p.tracks.length : Int) ∨
        p.repeat_mode = RepeatMode.queue) →
       p.next_track.2.history
         = if 50 < p.history.length + 1 then (p.history ++ [c]).drop 1
           else p.history ++ [c]) ∧
    (∀ p : Playlist, p.history.length ≤ 50 →
       p.next_track.2.history.length ≤ 50) ∧
    (∀ (p : Playlist) (h' : List Track),
       ({ p with history := h' } : Playlist).next_track.1 = p.next_track.1 ∧
       ({ p with history := h' } : Playlist).next_track.2.current_index
         = p.next_track.2.current_index ∧
       ({ p with history := h' } : Playlist).next_track.2.tracks
         = p.next_track.2.tracks) := by
  refine ⟨next_track_hist_move, ?_, ?_⟩
  · intro p h
    unfold Playlist.next_track
    dsimp only
    split_ifs <;> first
      | exact h
      | exact addHistory_length_le _ _ h
  · intro p h'
    exact ⟨next_track_fst_hist p h', next_track_ci_hist p h',
      next_track_tracks_hist p h'⟩

/-- Witness for the amended C9 at concrete inputs: a wrapping advance on
`[A, B]` with cursor 1 appends the previous current track B to the
history; the bound and independence conjuncts are instantiated at the same
playlist. -/
theorem C9_history_buffer_amended_witness :
    ({ startQueue [trackA, trackB] RepeatMode.queue 100 with
        current_index := 1 } : Playlist).next_track.2.history = [trackB] ∧
    ({ startQueue [trackA, trackB] RepeatMode.queue 100 with
        current_index := 1 } : Playlist).next_track.2.history.length ≤ 50 ∧
    ({ startQueue [trackA, trackB] RepeatMode.queue 100 with
        current_index := 1, history := [trackC] } : Playlist).next_track.1
      = ({ startQueue [trackA, trackB] RepeatMode.queue 100 with
            current_index := 1 } : Playlist).next_track.1 := by
  refine ⟨?_, ?_, ?_⟩
  · have h := C9_history_buffer_amended.1
      ({ startQueue [trackA, trackB] RepeatMode.queue 100 with current_index := 1 })
      trackB (by decide) (by decide) rfl (by decide) (Or.inr rfl)
    simpa using h
  · exact C9_history_buffer_amended.2.1
      ({ startQueue [trackA, trackB] RepeatMode.queue 100 with current_index := 1 })
      (by decide)
  · exact (C9_history_buffer_amended.2.2
      ({ startQueue [trackA, trackB] RepeatMode.queue 100 with current_index := 1 })
      [trackC]).1

/-! ### Advanced filter system (`src/utils/advanced_filters.py`) -/

/-- Embeds `advanced_filters.py::FilterParameter` (name, current value and
inclusive bounds; the informational description is dropped). -/
structure FilterParameter where
  name : String
  value : Rat
  min_val : Rat
  max_val : Rat
deriving DecidableEq, Repr

/-- Embeds `FilterParameter.set_value`: commits only when
`min_val ≤ value ≤ max_val`, otherwise reports failure and keeps the prior
value. -/
def FilterParameter.set_value (p : FilterParameter) (v : Rat) :
    Bool × FilterParameter :=
  if p.min_val ≤ v ∧ v ≤ p.max_val then (true, { p with value := v })
  else (false, p)

/-- Embeds `advanced_filters.py::AudioFilter`.  The Python `parameters`
dict (insertion-ordered, unique keys) becomes an ordered list. -/
structure AudioFilter where
  name : String
  ffmpeg_template : String
  parameters : List FilterParameter
  enabled : Bool
deriving DecidableEq, Repr

/-- Dict-style update of the first parameter with the given name;
`(false, unchanged)` when the name is absent, mirroring
`AudioFilter.set_parameter`'s membership test. -/
def setParamInList : List FilterParameter → String → Rat →
    Bool × List FilterParameter
  | [], _, _ => (false, [])
  | q :: rest, pname, v =>
    if q.name = pname then
      let r := q.set_value v
      (r.1, r.2 :: rest)
    else
      let r := setParamInList rest pname v
      (r.1, q :: r.2)

/-- Embeds `AudioFilter.set_parameter`. -/
def AudioFilter.set_parameter (f : AudioFilter) (pname : String) (v : Rat) :
    Bool × AudioFilter :=
  let r := setParamInList f.parameters pname v
  (r.1, { f with parameters := r.2 })

/-- Embeds `AudioFilter.get_ffmpeg_filter`: empty string when disabled,
otherwise the template with each placeholder `\x7bname\x7d` replaced by
the parameter's current value. -/
def AudioFilter.get_ffmpeg_filter (f : AudioFilter) : String :=
  if !f.enabled then ""
  else
    f.parameters.foldl
      (fun s q => s.replace ("\x7b" ++ q.name ++ "\x7d") (toString q.value))
      f.ffmpeg_template

/-- One filter's entry in a preset (`FilterPreset.add_filter_config`). -/
structure PresetConfig where
  enabled : Bool
  parameters : List (String × Rat)
deriving DecidableEq, Repr

/-- Embeds `advanced_filters.py::FilterPreset`. -/
structure FilterPreset where
  name : String
  filters : List (String × PresetConfig)
deriving DecidableEq, Repr

/-- Embeds `advanced_filters.py::AdvancedFilterManager`.  The Python
`filters` dict keys always equal the stored filter's `name`, so the dict
becomes a registration-ordered list looked up by that field. -/
structure AdvancedFilterManager where
  filters : List AudioFilter
  presets : List FilterPreset
deriving DecidableEq, Repr

/-- Dict-style update of the first filter with the given name. -/
def updateFilterNamed : List AudioFilter → String →
    (AudioFilter → AudioFilter) → List AudioFilter
  | [], _, _ => []
  | f :: rest, name, upd =>
    if f.name = name then upd f :: rest
    else f :: updateFilterNamed rest name upd

/-- Embeds the `filter_name in self.filters` membership test. -/
def hasFilterNamed (fs : List AudioFilter) (name : String) : Bool :=
  fs.any (fun f => f.name = name)

namespace AdvancedFilterManager

/-- Embeds `AdvancedFilterManager.get_filter`. -/
def get_filter (m : AdvancedFilterManager) (name : String) :
    Option AudioFilter :=
  m.filters.find? (fun f => f.name = name)

/-- Embeds `AdvancedFilterManager.enable_filter`. -/
def enable_filter (m : AdvancedFilterManager) (name : String) :
    Bool × AdvancedFilterManager :=
  if hasFilterNamed m.filters name then
    (true, { m with
      filters := updateFilterNamed m.filters name
        (fun f => { f with enabled := true }) })
  else (false, m)

/-- Embeds `AdvancedFilterManager.disable_filter`. -/
def disable_filter (m : AdvancedFilterManager) (name : String) :
    Bool × AdvancedFilterManager :=
  if hasFilterNamed m.filters name then
    (true, { m with
      filters := updateFilterNamed m.filters name
        (fun f => { f with enabled := false }) })
  else (false, m)

end AdvancedFilterManager

/-- Dict-style first-match version of
`AdvancedFilterManager.set_filter_parameter` over the filter list. -/
def setFilterParamInList : List AudioFilter → String → String → Rat →
    Bool × List AudioFilter
  | [], _, _, _ => (false, [])
  | f :: rest, fname, pname, v =>
    if f.name = fname then
      let r := f.set_parameter pname v
      (r.1, r.2 :: rest)
    else
      let r := setFilterParamInList rest fname pname v
      (r.1, f :: r.2)

/-- Embeds `AdvancedFilterManager.set_filter_parameter`. -/
def AdvancedFilterManager.set_filter_parameter (m : AdvancedFilterManager)
    (fname pname : String) (v : Rat) : Bool × AdvancedFilterManager :=
  let r := setFilterParamInList m.filters fname pname v
  (r.1, { m with filters := r.2 })

/-- Embeds `AdvancedFilterManager.get_combined_ffmpeg_filter`: renders the
enabled filters in registration order, drops empty fragments, joins with
commas. -/
def AdvancedFilterManager.get_combined_ffmpeg_filter
    (m : AdvancedFilterManager) : String :=
  String.intercalate ","
    (((m.filters.filter (fun f => f.enabled)).map
        AudioFilter.get_ffmpeg_filter).filter (fun s => s ≠ ""))

/-- The per-filter body of `apply_preset`'s second loop: set the enabled
flag from the preset's config, then set each configured parameter (a
skipped no-op when the filter name is unknown). -/
def applyPresetConfig (m : AdvancedFilterManager) (fname : String)
    (cfg : PresetConfig) : AdvancedFilterManager :=
  if hasFilterNamed m.filters fname then
    let fs := updateFilterNamed m.filters fname
      (fun f => { f with enabled := cfg.enabled })
    let m1 : AdvancedFilterManager := { m with filters := fs }
    cfg.parameters.foldl
      (fun acc pr => (acc.set_filter_parameter fname pr.1 pr.2).2) m1
  else m

/-- Embeds `AdvancedFilterManager.apply_preset`: `False` for an unknown
preset; otherwise all filters are disabled first and the preset's
configurations applied. -/
def AdvancedFilterManager.apply_preset (m : AdvancedFilterManager)
    (preset_name : String) : Bool × AdvancedFilterManager :=
  match m.presets.find? (fun pr => pr.name = preset_name) with
  | none => (false, m)
  | some preset =>
    let fs := m.filters.map (fun f => { f with enabled := false })
    let m1 : AdvancedFilterManager := { m with filters := fs }
    (true, preset.filters.foldl (fun acc pr => applyPresetConfig acc pr.1 pr.2) m1)

/-- The `bassboost` filter as built in the manager's constructor. -/
def bassboostFilter : AudioFilter :=
  { name := "bassboost",
    ffmpeg_template := "bass=g={gain},dynaudnorm=f={frequency}",
    parameters :=
      [ { name := "gain", value := 15, min_val := 0, max_val := 30 },
        { name := "frequency", value := 200, min_val := 100, max_val := 500 } ],
    enabled := false }

/-- The `nightcore` filter as built in the manager's constructor. -/
def nightcoreFilter : AudioFilter :=
  { name := "nightcore",
    ffmpeg_template := "atempo={tempo},asetrate=44100*{pitch_factor},bass=g={bass_gain}",
    parameters :=
      [ { name := "tempo", value := 1.3, min_val := 1.0, max_val := 2.0 },
        { name := "pitch_factor", value := 1.3, min_val := 1.0, max_val := 2.0 },
        { name := "bass_gain", value := 5, min_val := 0, max_val := 15 } ],
    enabled := false }

/-- The `slowed` filter as built in the manager's constructor. -/
def slowedFilter : AudioFilter :=
  { name := "slowed",
    ffmpeg_template := "atempo={tempo},aecho={in_gain}:{out_gain}:{delay}:{decay}",
    parameters :=
      [ { name := "tempo", value := 0.8, min_val := 0.5, max_val := 1.0 },
        { name := "in_gain", value := 0.8, min_val := 0.1, max_val := 1.0 },
        { name := "out_gain", value := 0.9, min_val := 0.1, max_val := 1.0 },
        { name := "delay", value := 1000, min_val := 100, max_val := 2000 },
        { name := "decay", value := 0.3, min_val := 0.1, max_val := 0.9 } ],
    enabled := false }

/-- The `8d` filter as built in the manager's constructor. -/
def audio8dFilter : AudioFilter :=
  { name := "8d",
    ffmpeg_template := "apulsator=hz={frequency}",
    parameters :=
      [ { name := "frequency", value := 0.2, min_val := 0.1, max_val := 2.0 } ],
    enabled := false }

/-- The `equalizer` filter as built in the manager's constructor. -/
def equalizerFilter : AudioFilter :=
  { name := "equalizer",
    ffmpeg_template := "equalizer=f={freq1}:t=h:w={width1}:g={gain1}:f={freq2}:t=h:w={width2}:g={gain2}:f={freq3}:t=h:w={width3}:g={gain3}",
    parameters :=
      [ { name := "freq1", value := 100, min_val := 20, max_val := 500 },
        { name := "gain1", value := 0, min_val := -20, max_val := 20 },
        { name := "width1", value := 50, min_val := 10, max_val := 200 },
        { name := "freq2", value := 1000, min_val := 500, max_val := 5000 },
        { name := "gain2", value := 0, min_val := -20, max_val := 20 },
        { name := "width2", value := 100, min_val := 10, max_val := 500 },
        { name := "freq3", value := 8000, min_val := 2000, max_val := 20000 },
        { name := "gain3", value := 0, min_val := -20, max_val := 20 },
        { name := "width3", value := 200, min_val := 10, max_val := 1000 } ],
    enabled := false }

/-- The `overdrive` filter as built in the manager's constructor. -/
def overdriveFilter : AudioFilter :=
  { name := "overdrive",
    ffmpeg_template := "volume={drive}dB,alimiter=level_in={level_in}:level_out={level_out}:limit={limit}:attack=5:release=50,volume={output}dB",
    parameters :=
      [ { name := "drive", value := 12, min_val := 3, max_val := 30 },
        { name := "level_in", value := 1.0, min_val := 0.5, max_val := 2.0 },
        { name := "level_out", value := 0.8, min_val := 0.3, max_val := 1.0 },
        { name := "limit", value := 0.9, min_val := 0.5, max_val := 0.98 },
        { name := "output", value := -3, min_val := -10, max_val := 3 } ],
    enabled := false }

/-- The `compressor` filter as built in the manager's constructor. -/
def compressorFilter : AudioFilter :=
  { name := "compressor",
    ffmpeg_template := "acompressor=threshold={threshold}:ratio={ratio}:attack={attack}:release={release}",
    parameters :=
      [ { name := "threshold", value := 0.5, min_val := 0.1, max_val := 1.0 },
        { name := "ratio", value := 4, min_val := 1, max_val := 20 },
        { name := "attack", value := 5, min_val := 1, max_val := 100 },
        { name := "release", value := 50, min_val := 10, max_val := 1000 } ],
    enabled := false }

/-- The `gaming` preset as built in the manager's constructor. -/
def gamingPreset : FilterPreset :=
  { name := "gaming",
    filters :=
      [ ("compressor",
         { enabled := true,
           parameters := [("threshold", 0.3), ("ratio", 6), ("attack", 2), ("release", 30)] }),
        ("equalizer",
         { enabled := true,
           parameters := [("freq2", 2000), ("gain2", 3), ("freq3", 6000), ("gain3", 2)] }) ] }

/-- The `music` preset as built in the manager's constructor. -/
def musicPreset : FilterPreset :=
  { name := "music",
    filters :=
      [ ("bassboost",
         { enabled := true, parameters := [("gain", 8), ("frequency", 150)] }),
        ("equalizer",
         { enabled := true,
           parameters := [("freq1", 80), ("gain1", 2), ("freq3", 12000), ("gain3", 1)] }) ] }

/-- The `vocal` preset as built in the manager's constructor. -/
def vocalPreset : FilterPreset :=
  { name := "vocal",
    filters :=
      [ ("compressor",
         { enabled := true,
           parameters := [("threshold", 0.6), ("ratio", 3), ("attack", 1), ("release", 100)] }),
        ("equalizer",
         { enabled := true,
           parameters := [("freq2", 1500), ("gain2", 4), ("width2", 200)] }) ] }

/-- The manager state right after `AdvancedFilterManager.__init__`. -/
def defaultManager : AdvancedFilterManager :=
  { filters :=
      [ bassboostFilter, nightcoreFilter, slowedFilter, audio8dFilter,
        equalizerFilter, overdriveFilter, compressorFilter ],
    presets := [gamingPreset, musicPreset, vocalPreset] }

lemma mem_updateFilterNamed {fs : List AudioFilter} {name : String}
    {upd : AudioFilter → AudioFilter} {g : AudioFilter}
    (hg : g ∈ updateFilterNamed fs name upd) :
    g ∈ fs ∨ ∃ f ∈ fs, f.name = name ∧ g = upd f := by
  induction fs with
  | nil => simp [updateFilterNamed] at hg
  | cons f rest ih =>
    rw [updateFilterNamed] at hg
    by_cases hf : f.name = name
    · rw [if_pos hf] at hg
      rcases List.mem_cons.mp hg with h | h
      · exact Or.inr ⟨f, List.mem_cons_self f rest, hf, h⟩
      · exact Or.inl (List.mem_cons_of_mem _ h)
    · rw [if_neg hf] at hg
      rcases List.mem_cons.mp hg with h | h
      · exact Or.inl (by simp [h])
      · rcases ih h with h' | ⟨f', hmem, hn, hgu⟩
        · exact Or.inl (List.mem_cons_of_mem _ h')
        · exact Or.inr ⟨f', List.mem_cons_of_mem _ hmem, hn, hgu⟩

lemma mem_setFilterParamInList {fs : List AudioFilter}
    {fname pname : String} {v : Rat} {g : AudioFilter}
    (hg : g ∈ (setFilterParamInList fs fname pname v).2) :
    ∃ f ∈ fs, g.name = f.name ∧ g.enabled = f.enabled := by
  induction fs with
  | nil => simp [setFilterParamInList] at hg
  | cons f rest ih =>
    rw [setFilterParamInList] at hg
    by_cases hf : f.name = fname
    · rw [if_pos hf] at hg
      dsimp only at hg
      rcases List.mem_cons.mp hg with h | h
      · subst h
        exact ⟨f, List.mem_cons_self f rest, rfl, rfl⟩
      · exact ⟨g, List.mem_cons_of_mem _ h, rfl, rfl⟩
    · rw [if_neg hf] at hg
      dsimp only at hg
      rcases List.mem_cons.mp hg with h | h
      · subst h
        exact ⟨g, List.mem_cons_self g rest, rfl, rfl⟩
      · rcases ih h with ⟨f', hmem, hn, he⟩
        exact ⟨f', List.mem_cons_of_mem _ hmem, hn, he⟩

lemma mem_paramFold {prs : List (String × Rat)} :
    ∀ {m : AdvancedFilterManager} {fname : String} {g : AudioFilter},
    g ∈ (prs.foldl
          (fun acc pr => (acc.set_filter_parameter fname pr.1 pr.2).2)
          m).filters →
    ∃ f ∈ m.filters, g.name = f.name ∧ g.enabled = f.enabled := by
  induction prs with
  | nil =>
    intro m fname g hg
    exact ⟨g, hg, rfl, rfl⟩
  | cons pr rest ih =>
    intro m fname g hg
    rw [List.foldl_cons] at hg
    rcases ih hg with ⟨f1, hf1, hn1, he1⟩
    rcases mem_setFilterParamInList hf1 with ⟨f, hf, hn, he⟩
    exact ⟨f, hf, hn1.trans hn, he1.trans he⟩

lemma mem_applyPresetConfig {m : AdvancedFilterManager} {fname : String}
    {cfg : PresetConfig} {g : AudioFilter}
    (hg : g ∈ (applyPresetConfig m fname cfg).filters) :
    ∃ f ∈ m.filters, g.name = f.name ∧
      (g.enabled = f.enabled ∨ (g.name = fname ∧ g.enabled = cfg.enabled)) := by
  unfold applyPresetConfig at hg
  by_cases hhas : hasFilterNamed m.filters fname
  · rw [if_pos hhas] at hg
    dsimp only at hg
    rcases mem_paramFold hg with ⟨f1, hf1, hn1, he1⟩
    rcases mem_updateFilterNamed hf1 with h | ⟨f, hf, hfn, hgu⟩
    · exact ⟨f1, h, hn1, Or.inl he1⟩
    · subst hgu
      exact ⟨f, hf, hn1, Or.inr ⟨hn1.trans hfn, he1⟩⟩
  · rw [if_neg hhas] at hg
    exact ⟨g, hg, rfl, Or.inl rfl⟩

lemma mem_presetFold {entries : List (String × PresetConfig)} :
    ∀ {m : AdvancedFilterManager} {g : AudioFilter},
    g ∈ (entries.foldl (fun acc pr => applyPresetConfig acc pr.1 pr.2)
          m).filters →
    (∃ f ∈ m.filters, g.name = f.name ∧ g.enabled = f.enabled) ∨
    (∃ e ∈ entries, g.name = e.1 ∧ g.enabled = e.2.enabled) := by
  induction entries with
  | nil =>
    intro m g hg
    exact Or.inl ⟨g, hg, rfl, rfl⟩
  | cons e rest ih =>
    intro m g hg
    rw [List.foldl_cons] at hg
    rcases ih hg with ⟨f1, hf1, hn1, he1⟩ | ⟨e', he', hnm, heq⟩
    · rcases mem_applyPresetConfig hf1 with ⟨f, hf, hn, he | ⟨hnm, he⟩⟩
      · exact Or.inl ⟨f, hf, hn1.trans hn, he1.trans he⟩
      · exact Or.inr ⟨e, List.mem_cons_self e rest, hn1.trans hnm, he1.trans he⟩
    · exact Or.inr ⟨e', List.mem_cons_of_mem _ he', hnm, heq⟩

/-- C4: `apply_preset` returns `False` and changes nothing for an unknown
preset name; for a known preset it returns `True` and afterwards every
enabled filter bears the name of a preset entry whose config enables it —
hence any filter enabled before but not configured as enabled by the
preset ends up disabled (disable-all then apply, never a mix). -/
theorem C4_preset_atomicity :
    (∀ (m : AdvancedFilterManager) (name : String),
       m.presets.find? (fun pr => pr.name = name) = none →
       m.apply_preset name = (false, m)) ∧
    (∀ (m : AdvancedFilterManager) (name : String) (preset : FilterPreset),
       m.presets.find? (fun pr => pr.name = name) = some preset →
       (m.apply_preset name).1 = true ∧
       (∀ g ∈ (m.apply_preset name).2.filters, g.enabled = true →
          ∃ e ∈ preset.filters, g.name = e.1 ∧ e.2.enabled = true) ∧
       (∀ g ∈ (m.apply_preset name).2.filters,
          (∀ e ∈ preset.filters, g.name = e.1 → e.2.enabled = false) →
          g.enabled = false)) := by
  constructor
  · intro m name hnone
    unfold AdvancedFilterManager.apply_preset
    rw [hnone]
  · intro m name preset hsome
    have happ : m.apply_preset name =
        (true,
         preset.filters.foldl (fun acc pr => applyPresetConfig acc pr.1 pr.2)
           { m with filters := m.filters.map (fun f => { f with enabled := false }) }) := by
      unfold AdvancedFilterManager.apply_preset
      rw [hsome]
    have henabled : ∀ g ∈ (m.apply_preset name).2.filters, g.enabled = true →
        ∃ e ∈ preset.filters, g.name = e.1 ∧ e.2.enabled = true := by
      intro g hg hge
      rw [happ] at hg
      rcases mem_presetFold hg with ⟨f, hf, _hn, he⟩ | ⟨e, he, hnm, heq⟩
      · simp only [List.mem_map] at hf
        rcases hf with ⟨f0, _hf0, hfe⟩
        rw [hge] at he
        rw [← hfe] at he
        cases he
      · exact ⟨e, he, hnm, heq ▸ hge⟩
    refine ⟨by rw [happ], henabled, ?_⟩
    intro g hg hall
    cases hge : g.enabled with
    | false => rfl
    | true =>
      rcases henabled g hg hge with ⟨e, he, hnm, hetrue⟩
      rw [hall e he hnm] at hetrue
      cases hetrue

/-- Witness for C4: applying the known preset `music` to the default
manager succeeds, and an unknown preset name is rejected with the manager
unchanged. -/
theorem C4_preset_atomicity_witness :
    (defaultManager.apply_preset "music").1 = true ∧
    defaultManager.apply_preset "unknown" = (false, defaultManager) :=
  ⟨(C4_preset_atomicity.2 defaultManager "music" musicPreset rfl).1,
   C4_preset_atomicity.1 defaultManager "unknown" rfl⟩

lemma setParamInList_unknown {ps : List FilterParameter} {pname : String}
    {v : Rat} (h : ∀ q ∈ ps, q.name ≠ pname) :
    setParamInList ps pname v = (false, ps) := by
  induction ps with
  | nil => rfl
  | cons q rest ih =>
    rw [setParamInList, if_neg (h q (List.mem_cons_self q rest))]
    rw [ih (fun x hx => h x (List.mem_cons_of_mem _ hx))]

lemma setParamInList_out_of_range {ps : List FilterParameter}
    {pname : String} {v : Rat} {q : FilterParameter}
    (hfind : ps.find? (fun x => x.name = pname) = some q)
    (hout : ¬(q.min_val ≤ v ∧ v ≤ q.max_val)) :
    setParamInList ps pname v = (false, ps) := by
  induction ps with
  | nil => simp at hfind
  | cons q0 rest ih =>
    by_cases h0 : q0.name = pname
    · rw [List.find?_cons_of_pos _ (by simpa using h0)] at hfind
      cases hfind
      rw [setParamInList, if_pos h0]
      unfold FilterParameter.set_value
      rw [if_neg hout]
    · rw [List.find?_cons_of_neg _ (by simpa using h0)] at hfind
      rw [setParamInList, if_neg h0, ih hfind]

lemma setParamInList_commit {ps : List FilterParameter}
    {pname : String} {v : Rat} {q : FilterParameter}
    (hfind : ps.find? (fun x => x.name = pname) = some q)
    (hlo : q.min_val ≤ v) (hhi : v ≤ q.max_val) :
    (setParamInList ps pname v).1 = true ∧
    (setParamInList ps pname v).2.find? (fun x => x.name = pname)
      = some { q with value := v } := by
  induction ps with
  | nil => simp at hfind
  | cons q0 rest ih =>
    by_cases h0 : q0.name = pname
    · rw [List.find?_cons_of_pos _ (by simpa using h0)] at hfind
      cases hfind
      rw [setParamInList, if_pos h0]
      unfold FilterParameter.set_value
      rw [if_pos ⟨hlo, hhi⟩]
      refine ⟨rfl, ?_⟩
      dsimp only
      rw [List.find?_cons_of_pos _ (by simpa using h0)]
    · rw [List.find?_cons_of_neg _ (by simpa using h0)] at hfind
      rw [setParamInList, if_neg h0]
      rcases ih hfind with ⟨h1, h2⟩
      refine ⟨by simpa using h1, ?_⟩
      dsimp only
      rw [List.find?_cons_of_neg _ (by simpa using h0)]
      exact h2

lemma setFilterParamInList_noname {fs : List AudioFilter}
    {fname pname : String} {v : Rat}
    (h : ∀ f ∈ fs, f.name ≠ fname) :
    setFilterParamInList fs fname pname v = (false, fs) := by
  induction fs with
  | nil => rfl
  | cons f rest ih =>
    rw [setFilterParamInList, if_neg (h f (List.mem_cons_self f rest))]
    rw [ih (fun x hx => h x (List.mem_cons_of_mem _ hx))]

lemma setFilterParamInList_fail {fs : List AudioFilter}
    {fname pname : String} {v : Rat} {f : AudioFilter}
    (hfind : fs.find? (fun g => g.name = fname) = some f)
    (hfail : setParamInList f.parameters pname v = (false, f.parameters)) :
    setFilterParamInList fs fname pname v = (false, fs) := by
  induction fs with
  | nil => simp at hfind
  | cons f0 rest ih =>
    by_cases h0 : f0.name = fname
    · rw [List.find?_cons_of_pos _ (by simpa using h0)] at hfind
      cases hfind
      rw [setFilterParamInList, if_pos h0]
      unfold AudioFilter.set_parameter
      rw [hfail]
    · rw [List.find?_cons_of_neg _ (by simpa using h0)] at hfind
      rw [setFilterParamInList, if_neg h0, ih hfind]

lemma setFilterParamInList_commit {fs : List AudioFilter}
    {fname pname : String} {v : Rat} {f : AudioFilter}
    {ps' : List FilterParameter}
    (hfind : fs.find? (fun g => g.name = fname) = some f)
    (hok : setParamInList f.parameters pname v = (true, ps')) :
    (setFilterParamInList fs fname pname v).1 = true ∧
    (setFilterParamInList fs fname pname v).2.find? (fun g => g.name = fname)
      = some { f with parameters := ps' } := by
  induction fs with
  | nil => simp at hfind
  | cons f0 rest ih =>
    by_cases h0 : f0.name = fname
    · rw [List.find?_cons_of_pos _ (by simpa using h0)] at hfind
      cases hfind
      rw [setFilterParamInList, if_pos h0]
      unfold AudioFilter.set_parameter
      rw [hok]
      refine ⟨rfl, ?_⟩
      dsimp only
      rw [List.find?_cons_of_pos _ (by simpa using h0)]
    · rw [List.find?_cons_of_neg _ (by simpa using h0)] at hfind
      rw [setFilterParamInList, if_neg h0]
      rcases ih hfind with ⟨h1, h2⟩
      refine ⟨by simpa using h1, ?_⟩
      dsimp only
      rw [List.find?_cons_of_neg _ (by simpa using h0)]
      exact h2

/-- C5: `set_filter_parameter` returns `False` and leaves the manager — and
hence the combined FFmpeg chain — unchanged when the filter name is
unknown, the parameter name is unknown, or the value lies outside the
parameter's inclusive `[min, max]` range (no clamping); within range it
commits the value and returns `True`. -/
theorem C5_parameter_bounds :
    (∀ (m : AdvancedFilterManager) (fname pname : String) (v : Rat),
       (∀ f ∈ m.filters, f.name ≠ fname) →
       m.set_filter_parameter fname pname v = (false, m) ∧
       (m.set_filter_parameter fname pname v).2.get_combined_ffmpeg_filter
         = m.get_combined_ffmpeg_filter) ∧
    (∀ (m : AdvancedFilterManager) (fname pname : String) (v : Rat)
       (f : AudioFilter),
       m.get_filter fname = some f →
       (∀ q ∈ f.parameters, q.name ≠ pname) →
       m.set_filter_parameter fname pname v = (false, m) ∧
       (m.set_filter_parameter fname pname v).2.get_combined_ffmpeg_filter
         = m.get_combined_ffmpeg_filter) ∧
    (∀ (m : AdvancedFilterManager) (fname pname : String) (v : Rat)
       (f : AudioFilter) (q : FilterParameter),
       m.get_filter fname = some f →
       f.parameters.find? (fun x => x.name = pname) = some q →
       ¬(q.min_val ≤ v ∧ v ≤ q.max_val) →
       m.set_filter_parameter fname pname v = (false, m) ∧
       (m.set_filter_parameter fname pname v).2.get_combined_ffmpeg_filter
         = m.get_combined_ffmpeg_filter) ∧
    (∀ (m : AdvancedFilterManager) (fname pname : String) (v : Rat)
       (f : AudioFilter) (q : FilterParameter),
       m.get_filter fname = some f →
       f.parameters.find? (fun x => x.name = pname) = some q →
       q.min_val ≤ v → v ≤ q.max_val →
       (m.set_filter_parameter fname pname v).1 = true ∧
       ∃ f', (m.set_filter_parameter fname pname v).2.get_filter fname
               = some f' ∧
             f'.parameters.find? (fun x => x.name = pname)
               = some { q with value := v }) := by
  refine ⟨?_, ?_, ?_, ?_⟩
  · intro m fname pname v h
    have hr := @setFilterParamInList_noname m.filters fname pname v h
    have heq : m.set_filter_parameter fname pname v = (false, m) := by
      unfold AdvancedFilterManager.set_filter_parameter
      rw [hr]
    exact ⟨heq, by rw [heq]⟩
  · intro m fname pname v f hfind hparams
    have hfail : setParamInList f.parameters pname v = (false, f.parameters) :=
      setParamInList_unknown hparams
    have hr := setFilterParamInList_fail hfind hfail
    have heq : m.set_filter_parameter fname pname v = (false, m) := by
      unfold AdvancedFilterManager.set_filter_parameter
      rw [hr]
    exact ⟨heq, by rw [heq]⟩
  · intro m fname pname v f q hfind hfindp hout
    have hfail : setParamInList f.parameters pname v = (false, f.parameters) :=
      setParamInList_out_of_range hfindp hout
    have hr := setFilterParamInList_fail hfind hfail
    have heq : m.set_filter_parameter fname pname v = (false, m) := by
      unfold AdvancedFilterManager.set_filter_parameter
      rw [hr]
    exact ⟨heq, by rw [heq]⟩
  · intro m fname pname v f q hfind hfindp hlo hhi
    rcases setParamInList_commit hfindp hlo hhi with ⟨h1, h2⟩
    have hok : setParamInList f.parameters pname v
        = (true, (setParamInList f.parameters pname v).2) := Prod.ext h1 rfl
    rcases setFilterParamInList_commit hfind hok with ⟨h3, h4⟩
    refine ⟨h3, ⟨{ f with parameters := (setParamInList f.parameters pname v).2 },
      h4, h2⟩⟩

/-- Witness for C5 on the default manager: unknown filter, unknown
parameter and out-of-range value are all rejected leaving the manager
unchanged, and an in-range value commits. -/
theorem C5_parameter_bounds_witness :
    defaultManager.set_filter_parameter "flanger" "gain" 1
      = (false, defaultManager) ∧
    defaultManager.set_filter_parameter "bassboost" "slope" 1
      = (false, defaultManager) ∧
    defaultManager.set_filter_parameter "bassboost" "gain" 35
      = (false, defaultManager) ∧
    (defaultManager.set_filter_parameter "bassboost" "gain" 35).2.get_combined_ffmpeg_filter
      = defaultManager.get_combined_ffmpeg_filter ∧
    (defaultManager.set_filter_parameter "bassboost" "gain" 20).1 = true := by
  refine ⟨?_, ?_, ?_, ?_, ?_⟩
  · exact (C5_parameter_bounds.1 defaultManager "flanger" "gain" 1 (by decide)).1
  · exact (C5_parameter_bounds.2.1 defaultManager "bassboost" "slope" 1
      bassboostFilter (by decide) (by decide)).1
  · exact (C5_parameter_bounds.2.2.1 defaultManager "bassboost" "gain" 35
      bassboostFilter
      { name := "gain", value := 15, min_val := 0, max_val := 30 }
      (by decide) (by decide) (by decide)).1
  · exact (C5_parameter_bounds.2.2.1 defaultManager "bassboost" "gain" 35
      bassboostFilter
      { name := "gain", value := 15, min_val := 0, max_val := 30 }
      (by decide) (by decide) (by decide)).2
  · exact (C5_parameter_bounds.2.2.2 defaultManager "bassboost" "gain" 20
      bassboostFilter
      { name := "gain", value := 15, min_val := 0, max_val := 30 }
      (by decide) (by decide) (by decide) (by decide)).1

/-! ### Volume setting (`player.py`, `domain/services/music_service.py`,
`services/filter_service.py`) -/

/-- Embeds `AudioPlayer.set_volume` (player.py): the requested volume is
clamped into `[0.0, 2.0]` (`max(0.0, min(2.0, volume))`) and stored as the
player's `current_volume`; there is no failure path.  The prior stored
volume is passed for comparison; the code ignores it. -/
def AudioPlayer.set_volume (_current_volume v : Rat) : Rat :=
  max 0 (min 2 v)

/-- Embeds domain `MusicService.set_volume`
(domain/services/music_service.py): outside `[0.0, 1.0]` a `ValueError`
is raised, caught, and `False` returned with no state change; in range,
when an audio player exists for the guild its volume is set (via the
clamping `AudioPlayer.set_volume`) and `True` returned, otherwise `False`.
The state is the optional player's stored volume. -/
def MusicService.set_volume (playerVolume : Option Rat) (v : Rat) :
    Bool × Option Rat :=
  if 0 ≤ v ∧ v ≤ 1 then
    match playerVolume with
    | some w => (true, some (AudioPlayer.set_volume w v))
    | none => (false, none)
  else (false, playerVolume)

/-- Embeds `FilterService.set_volume` (services/filter_service.py): an
integer percentage accepted iff `0 ≤ volume ≤ 150` and stored exactly;
otherwise rejected, leaving the stored config volume unchanged. -/
def FilterService.set_volume (stored volume : Int) : Bool × Int :=
  if 0 ≤ volume ∧ volume ≤ 150 then (true, volume) else (false, stored)

/-- C6 counterexample: `AudioPlayer.set_volume 0.5 2.5` succeeds and
clamps the stored volume to 2 instead of failing with a `ValidationError`
and leaving 0.5 in place; and the in-range values 1.5 (of `[0.0, 2.0]`)
and 175 % are rejected by the two service-layer implementations, whose
ranges are `[0.0, 1.0]` and `[0, 150]` respectively. -/
theorem C6_volume_validation_counterexample :
    AudioPlayer.set_volume (1 / 2) (5 / 2) = 2 ∧
    (MusicService.set_volume (some 1) (3 / 2)).1 = false ∧
    (FilterService.set_volume 75 175).1 = false := by
  refine ⟨?_, ?_, ?_⟩
  · unfold AudioPlayer.set_volume
    norm_num
  · unfold MusicService.set_volume
    norm_num
  · unfold FilterService.set_volume
    norm_num

/-- C6 (amended): `AudioPlayer.set_volume` clamps every requested volume
into `[0.0, 2.0]` and never fails (in particular it is the identity on
`[0.0, 2.0]`); domain `MusicService.set_volume` rejects values outside
`[0.0, 1.0]`, leaving the stored volume unchanged, and commits in-range
values exactly when a player exists; `FilterService.set_volume` rejects
integer percentages outside `[0, 150]` without clamping, leaving the
stored value unchanged, and stores in-range values exactly. -/
theorem C6_volume_validation_amended :
    (∀ w v : Rat,
       0 ≤ AudioPlayer.set_volume w v ∧ AudioPlayer.set_volume w v ≤ 2 ∧
       (0 ≤ v → v ≤ 2 → AudioPlayer.set_volume w v = v) ∧
       (2 < v → AudioPlayer.set_volume w v = 2) ∧
       (v < 0 → AudioPlayer.set_volume w v = 0)) ∧
    (∀ (pv : Option Rat) (v : Rat), ¬(0 ≤ v ∧ v ≤ 1) →
       MusicService.set_volume pv v = (false, pv)) ∧
    (∀ (w v : Rat), 0 ≤ v → v ≤ 1 →
       MusicService.set_volume (some w) v = (true, some v)) ∧
    (∀ v : Rat, MusicService.set_volume none v = (false, none)) ∧
    (∀ stored v : Int,
       (0 ≤ v → v ≤ 150 → FilterService.set_volume stored v = (true, v)) ∧
       (¬(0 ≤ v ∧ v ≤ 150) →
         FilterService.set_volume stored v = (false, stored))) := by
  refine ⟨?_, ?_, ?_, ?_, ?_⟩
  · intro w v
    unfold AudioPlayer.set_volume
    refine ⟨le_max_left 0 _, ?_, ?_, ?_, ?_⟩
    · exact max_le (by norm_num) (min_le_left 2 v)
    · intro h0 h2
      rw [min_eq_right h2, max_eq_right h0]
    · intro h2
      rw [min_eq_left (le_of_lt h2), max_eq_right (by norm_num)]
    · intro h0
      rw [max_eq_left (le_trans (min_le_right 2 v) (le_of_lt h0))]
  · intro pv v h
    unfold MusicService.set_volume
    rw [if_neg h]
  · intro w v h0 h1
    unfold MusicService.set_volume AudioPlayer.set_volume
    rw [if_pos ⟨h0, h1⟩]
    rw [min_eq_right (by linarith), max_eq_right h0]
  · intro v
    unfold MusicService.set_volume
    split <;> rfl
  · intro stored v
    unfold FilterService.set_volume
    constructor
    · intro h0 h1
      rw [if_pos ⟨h0, h1⟩]
    · intro h
      rw [if_neg h]

/-- Witness for the amended C6 at concrete volumes: 2.5 clamps to 2 at the
player, 1.5 is rejected by the domain service, 0.8 commits, and 175 is
rejected by the filter service while 90 commits. -/
theorem C6_volume_validation_amended_witness :
    AudioPlayer.set_volume (1 / 2) (5 / 2) = 2 ∧
    MusicService.set_volume (some (1 / 2)) (3 / 2) = (false, some (1 / 2)) ∧
    MusicService.set_volume (some (1 / 2)) (4 / 5) = (true, some (4 / 5)) ∧
    FilterService.set_volume 75 175 = (false, 75) ∧
    FilterService.set_volume 75 90 = (true, 90) := by
  refine ⟨?_, ?_, ?_, ?_, ?_⟩
  · exact (C6_volume_validation_amended.1 (1 / 2) (5 / 2)).2.2.2.1 (by norm_num)
  · exact C6_volume_validation_amended.2.1 (some (1 / 2)) (3 / 2) (by norm_num)
  · exact C6_volume_validation_amended.2.2.1 (1 / 2) (4 / 5) (by norm_num) (by norm_num)
  · exact (C6_volume_validation_amended.2.2.2.2 75 175).2 (by norm_num)
  · exact (C6_volume_validation_amended.2.2.2.2 75 90).1 (by norm_num) (by norm_num)

/-! ### Services-layer playback (`services/music_service.py`,
`services/playback_service.py`) -/

/-- Embeds `services/music_service.py::RepeatMode`. -/
inductive SRepeatMode where
  | off
  | song
  | queue
deriving DecidableEq, Repr

/-- Embeds `services/music_service.py::SongInfo` (fields the queue logic
inspects). -/
structure SongInfo where
  title : String
  url : String
deriving DecidableEq, Repr

/-- Embeds the per-guild slice of `services/music_service.py::PlaybackState`
together with the guild's entry in `MusicService._original_queues`. -/
structure SongState where
  queue : List SongInfo
  current_song : Option SongInfo
  repeat_mode : SRepeatMode
  original_queue : Option (List SongInfo)
  is_playing : Bool
  is_paused : Bool
deriving DecidableEq, Repr

/-- Embeds `MusicService.get_next_song`: in SONG repeat mode with a
current song, return it unchanged; otherwise pop the queue head,
maintaining the repeat-QUEUE bookkeeping (store the original queue once,
restore it — minus the current song — when the queue empties). -/
def get_next_song (s : SongState) : Option SongInfo × SongState :=
  if s.repeat_mode = SRepeatMode.song ∧ s.current_song.isSome then
    (s.current_song, s)
  else
    match s.queue with
    | [] => (none, s)
    | next :: rest =>
      let s1 : SongState := { s with queue := rest }
      if s.repeat_mode = SRepeatMode.queue then
        let s2 : SongState :=
          match s1.original_queue, s.current_song with
          | none, some cur => { s1 with original_queue := some (cur :: rest) }
          | _, _ => s1
        let s3 : SongState :=
          if s2.queue = [] then
            match s2.original_queue with
            | some oq => { s2 with queue := oq.drop 1 }
            | none => s2
          else s2
        (some next, s3)
      else (some next, s1)

/-- Embeds `MusicService.set_current_song`. -/
def set_current_song (s : SongState) (song : SongInfo) : SongState :=
  { s with current_song := some song, is_playing := true, is_paused := false }

/-- Embeds `MusicService.clear_current_song`. -/
def clear_current_song (s : SongState) : SongState :=
  { s with current_song := none, is_playing := false, is_paused := false }

/-- Embeds `PlaybackService.play_song`.  `createOk` stands for whether
`_create_audio_source` returns a source (`false` models the adapter
failure path returning `None`). -/
def play_song (s : SongState) (createOk : Bool) : Bool × SongState :=
  match get_next_song s with
  | (none, s') => (false, clear_current_song s')
  | (some song, s') =>
    let s'' := set_current_song s' song
    if createOk then (true, s'') else (false, s'')

/-- Sample songs for concrete states. -/
def songA : SongInfo := { title := "A", url := "sa" }

def songB : SongInfo := { title := "B", url := "sb" }

/-- C7 counterexample: with queue `[A, B]` (repeat OFF, nothing current),
a `play_song` whose audio-source creation fails reports the failure
(returns `False`) but has already popped A from the queue: the queue is
left at `[B]` with A only in `current_song`, and the next attempt pops B —
so the failed track is *not* still the next track to be played and cannot
be retried. -/
theorem C7_handle_failure_counterexample :
    (play_song
      { queue := [songA, songB], current_song := none,
        repeat_mode := SRepeatMode.off, original_queue := none,
        is_playing := false, is_paused := false } false).1 = false ∧
    (play_song
      { queue := [songA, songB], current_song := none,
        repeat_mode := SRepeatMode.off, original_queue := none,
        is_playing := false, is_paused := false } false).2.queue = [songB] ∧
    (play_song
      { queue := [songA, songB], current_song := none,
        repeat_mode := SRepeatMode.off, original_queue := none,
        is_playing := false, is_paused := false } false).2.current_song
      = some songA ∧
    (get_next_song
      (play_song
        { queue := [songA, songB], current_song := none,
          repeat_mode := SRepeatMode.off, original_queue := none,
          is_playing := false, is_paused := false } false).2).1 = some songB :=
  ⟨rfl, rfl, rfl, rfl⟩

/-- C7 (amended): when audio-source creation fails, `play_song` does
report the failure to the caller (returns `False`), but the chosen track
has already been popped from the queue by `get_next_song` and recorded
only as `current_song` (with `is_playing` even left `True`).  In repeat
mode OFF the queue is left advanced past the failed track, so a retry
pops the following track rather than the failed one; in repeat-QUEUE
mode the original-queue restore can instead place the failed track back
at the head when the pop empties the queue and the stored original queue
lists it next, so a retry may pop the failed track again. -/
theorem C7_handle_failure_amended :
    (∀ (s : SongState) (song : SongInfo) (rest : List SongInfo),
       s.queue = song :: rest → s.repeat_mode = SRepeatMode.off →
       play_song s false
         = (false,
            { s with queue := rest, current_song := some song,
                     is_playing := true, is_paused := false })) ∧
    (∀ (s : SongState) (song c : SongInfo) (more : List SongInfo),
       s.queue = [song] → s.repeat_mode = SRepeatMode.queue →
       s.original_queue = some (c :: song :: more) →
       play_song s false
         = (false,
            { s with queue := song :: more, current_song := some song,
                     is_playing := true, is_paused := false })) := by
  constructor
  · intro s song rest hq hm
    obtain ⟨q, cur, mode, orig, ip, ipd⟩ := s
    dsimp only at hq hm
    subst hq
    subst hm
    rfl
  · intro s song c more hq hm horig
    obtain ⟨q, cur, mode, orig, ip, ipd⟩ := s
    dsimp only at hq hm horig
    subst hq
    subst hm
    subst horig
    cases cur <;> rfl

/-- Witness for the amended C7: in OFF mode the failed track A is gone
from the queue (a retry pops B); in repeat-QUEUE mode, with queue `[A]`
and stored original queue `[B, A]`, the restore puts the failed track A
back at the head, so a retry pops A again. -/
theorem C7_handle_failure_amended_witness :
    play_song
      { queue := [songA, songB], current_song := none,
        repeat_mode := SRepeatMode.off, original_queue := none,
        is_playing := false, is_paused := false } false
      = (false,
         { queue := [songB], current_song := some songA,
           repeat_mode := SRepeatMode.off, original_queue := none,
           is_playing := true, is_paused := false }) ∧
    play_song
      { queue := [songA], current_song := some songB,
        repeat_mode := SRepeatMode.queue, original_queue := some [songB, songA],
        is_playing := true, is_paused := false } false
      = (false,
         { queue := [songA], current_song := some songA,
           repeat_mode := SRepeatMode.queue, original_queue := some [songB, songA],
           is_playing := true, is_paused := false }) :=
  ⟨C7_handle_failure_amended.1 _ songA [songB] rfl rfl,
   C7_handle_failure_amended.2 _ songA songB [] rfl rfl rfl⟩

/-! ### AudioPlayer restart/callback interplay
(`infrastructure/audio/player.py`, `domain/services/music_service.py`) -/

/-- Embeds the `AudioPlayer` fields involved in the filter-reapply race:
`is_playing_flag`, `current_track`, the presence of
`current_source`/`volume_transformer` (collapsed into `has_source`), and
the `_applying_filters` suppression flag.  The voice client is assumed
connected (the race of interest happens mid-playback). -/
structure PlayerState where
  is_playing_flag : Bool
  current_track : Option Track
  has_source : Bool
  applying_filters : Bool
deriving DecidableEq, Repr

/-- Embeds `AudioPlayer._on_playback_finished_sync`.  The handler first
clears `is_playing_flag` and the source references, then — only if the
`_applying_filters` flag is clear and a track is current — schedules the
`track_ended` event.  The Boolean result records whether that event is
scheduled. -/
def onPlaybackFinishedSync (s : PlayerState) : PlayerState × Bool :=
  let s1 : PlayerState := { s with is_playing_flag := false, has_source := false }
  if s1.applying_filters then (s1, false)
  else
    match s1.current_track with
    | some _ => (s1, true)
    | none => (s1, false)

/-- Embeds `AudioPlayer.play` restricted to the modelled fields:
`current_track` is set first; `extractOk` stands for the stream-URL
extraction and source creation succeeding (its failure paths return early
without installing a source or setting the playing flag). -/
def AudioPlayer.play (s : PlayerState) (t : Track) (extractOk : Bool) :
    PlayerState :=
  let s1 : PlayerState := { s with current_track := some t }
  if extractOk then { s1 with has_source := true, is_playing_flag := true }
  else s1

/-- Embeds `AudioPlayer._restart_with_filters` as the list of player
states at its atomic points: entry; after the suppression flag is set
(before the forced stop); after `play` rebuilt the source for the same
track; after the `finally` block cleared the flag.  The guard clause
(no current track, or a reapply already in flight) returns the state
unchanged. -/
def restartWithFiltersTrace (s : PlayerState) (extractOk : Bool) :
    List PlayerState :=
  match s.current_track with
  | none => [s]
  | some t =>
    if s.applying_filters then [s]
    else
      let s1 : PlayerState := { s with applying_filters := true }
      let s2 := AudioPlayer.play s1 t extractOk
      let s3 : PlayerState := { s2 with applying_filters := false }
      [s, s1, s2, s3]

/-- A guild's coupled player and playlist state. -/
structure GuildSystem where
  player : PlayerState
  playlist : Playlist
deriving DecidableEq, Repr

/-- Embeds `MusicService._on_track_ended`: advance the playlist; on a next
track restart playback for it, otherwise clear the playlist and drop the
player (modelled as an idle player). -/
def onTrackEnded (sys : GuildSystem) (extractOk : Bool) : GuildSystem :=
  let r := sys.playlist.next_track
  match r.1 with
  | some t =>
    { player := AudioPlayer.play sys.player t extractOk, playlist := r.2 }
  | none =>
    let idle : PlayerState :=
      { sys.player with
        is_playing_flag := false, current_track := none, has_source := false }
    { player := idle, playlist := r.2.clear }

/-- A playback-finished callback delivered to the guild system: the
synchronous handler runs, and the `track_ended` event — when scheduled —
drives `MusicService._on_track_ended`. -/
def staleCallback (sys : GuildSystem) (extractOk : Bool) : GuildSystem :=
  let r := onPlaybackFinishedSync sys.player
  let sys1 : GuildSystem := { sys with player := r.1 }
  if r.2 then onTrackEnded sys1 extractOk else sys1

/-- A concrete mid-reapply system: the suppression flag is set, the player
is playing track A, and the playlist holds A at cursor 0. -/
def reapplyRaceSystem : GuildSystem :=
  { player :=
      { is_playing_flag := true, current_track := some trackA,
        has_source := true, applying_filters := true },
    playlist :=
      { tracks := [trackA], current_index := 0,
        repeat_mode := RepeatMode.off, shuffle := false, history := [],
        max_size := 100 } }

/-- C1 counterexample: with the suppression flag set, the
playback-finished handler is *not* a no-op — it still clears
`is_playing_flag` (the player's playing/paused state) and drops the
source references — so "the finished-callback handler does nothing when
the flag is set" and "the playing/paused state [is] unaffected" fail,
even though the queue really is untouched. -/
theorem C1_reapply_suppression_counterexample :
    reapplyRaceSystem.player.applying_filters = true ∧
    reapplyRaceSystem.player.is_playing_flag = true ∧
    reapplyRaceSystem.player.has_source = true ∧
    (staleCallback reapplyRaceSystem true).player.is_playing_flag = false ∧
    (staleCallback reapplyRaceSystem true).player.has_source = false ∧
    (staleCallback reapplyRaceSystem true).playlist
      = reapplyRaceSystem.playlist :=
  ⟨rfl, rfl, rfl, rfl, rfl, rfl⟩

/-- C1 (amended): while a filter reapply is in flight the suppression flag
is set, and a playback-finished callback arriving then schedules no
`track_ended` event, so the playlist — its `current_index` in particular —
is unaffected (no queue advance); the handler does, however, still clear
the player's `is_playing_flag` and source references.  The flag is set
before the forced stop, stays set through the rebuild of the replacement
source, and is cleared only in the `finally` step afterwards, the rebuilt
state carrying the new source when extraction succeeds. -/
theorem C1_reapply_suppression_amended :
    (∀ (sys : GuildSystem) (b : Bool), sys.player.applying_filters = true →
       (onPlaybackFinishedSync sys.player).2 = false ∧
       staleCallback sys b
         = { sys with player :=
             { sys.player with is_playing_flag := false, has_source := false } } ∧
       (staleCallback sys b).playlist = sys.playlist ∧
       (staleCallback sys b).playlist.current_index
         = sys.playlist.current_index) ∧
    (∀ (p : PlayerState) (t : Track) (ok : Bool),
       p.current_track = some t → p.applying_filters = false →
       restartWithFiltersTrace p ok
         = [p,
            { p with applying_filters := true },
            AudioPlayer.play { p with applying_filters := true } t ok,
            { AudioPlayer.play { p with applying_filters := true } t ok with
                applying_filters := false }] ∧
       ({ p with applying_filters := true } : PlayerState).applying_filters
         = true ∧
       (AudioPlayer.play { p with applying_filters := true } t ok).applying_filters
         = true ∧
       ({ AudioPlayer.play { p with applying_filters := true } t ok with
           applying_filters := false } : PlayerState).applying_filters = false ∧
       (ok = true →
         (AudioPlayer.play { p with applying_filters := true } t ok).has_source
           = true)) := by
  constructor
  · intro sys b hflag
    have hev : (onPlaybackFinishedSync sys.player).2 = false := by
      unfold onPlaybackFinishedSync
      dsimp only
      rw [if_pos hflag]
    have hst : staleCallback sys b
        = { sys with player :=
            { sys.player with is_playing_flag := false, has_source := false } } := by
      unfold staleCallback onPlaybackFinishedSync
      dsimp only
      rw [if_pos hflag]
      dsimp only
      rw [if_neg (by simp)]
    exact ⟨hev, hst, by rw [hst], by rw [hst]⟩
  · intro p t ok hcur hflag
    refine ⟨?_, rfl, ?_, rfl, ?_⟩
    · unfold restartWithFiltersTrace
      rw [hcur]
      dsimp only
      rw [if_neg (by rw [hflag]; exact Bool.false_ne_true)]
    · unfold AudioPlayer.play
      dsimp only
      split <;> rfl
    · intro hok
      unfold AudioPlayer.play
      rw [hok]
      dsimp only
      rw [if_pos rfl]

/-- Witness for the amended C1: at the concrete mid-reapply system the
stale callback schedules no event and leaves the playlist untouched, and
a restart from a quiescent playing state produces the four-step trace
with the flag held through the rebuild. -/
theorem C1_reapply_suppression_amended_witness :
    (onPlaybackFinishedSync reapplyRaceSystem.player).2 = false ∧
    (staleCallback reapplyRaceSystem true).playlist.current_index
      = reapplyRaceSystem.playlist.current_index ∧
    (restartWithFiltersTrace
        { is_playing_flag := true, current_track := some trackA,
          has_source := true, applying_filters := false } true).length = 4 := by
  refine ⟨?_, ?_, ?_⟩
  · exact (C1_reapply_suppression_amended.1 reapplyRaceSystem true rfl).1
  · exact (C1_reapply_suppression_amended.1 reapplyRaceSystem true rfl).2.2.2
  · rw [(C1_reapply_suppression_amended.2
      { is_playing_flag := true, current_track := some trackA,
        has_source := true, applying_filters := false } trackA true rfl rfl).1]
    rfl
